import Mathlib

/-!
Verification of the live-translation recording pipeline.

This file gives a shallow embedding of the core logic of the repository:

* `DeepgramClient` (src/components/DeepgramClient.ts): transcript segmentation
  (`handleMessage`, `flushPendingUtterance`, `restartQuietFlushTimer`) and the
  reconnection policy (`attemptReconnection`, the `socket.onclose` handler,
  `stop`).
* `TranslationService` (the TypeScript service with named exports
  `TranslationService` / `TranslationDirection`, the one the controller
  imports): `translateText` with its whitespace normalization,
  `getLanguageCodes`, `translateForDirection`.
* The transcript file sink (electron/main.ts IPC handlers
  `files:createTranscripts`, `files:appendTranscript`, `files:closeTranscripts`).
* The recording session controller (src/hooks/useRecording.ts): the
  per-utterance `onTranscript` pipeline, `cleanup`, `stopRecording`, and the
  interleaving of `stopRecording` with the suspension points of
  `startRecording`.

JavaScript strings are modelled by Lean `String`; the JavaScript `trim()`
method is modelled by `jsTrim`, which drops whitespace characters from both
ends of the character list.  Timers are modelled by an explicit armed flag
plus an explicit timer-fire event; asynchronous completions are modelled by
explicit interleaving points.  Callback registrations are modelled as always
wired (the controller always registers its callbacks before recording).
-/

/-! ## The JavaScript string trim -/

/-- Characters dropped from both ends by the JavaScript `String.prototype.trim`
used throughout the source. -/
def trimChars (l : List Char) : List Char :=
  ((l.dropWhile Char.isWhitespace).reverse.dropWhile Char.isWhitespace).reverse

/-- Model of the JavaScript `text.trim()` calls in the source. -/
def jsTrim (s : String) : String :=
  ⟨trimChars s.data⟩

theorem jsTrim_empty : jsTrim "" = "" := rfl

theorem String.data_append_eq (s t : String) : (s ++ t).data = s.data ++ t.data := rfl

theorem String.ne_empty_iff_data {s : String} : s ≠ "" ↔ s.data ≠ [] := by
  constructor
  · intro h hd; exact h (String.ext hd)
  · intro h hd; exact h (congrArg String.data hd)

theorem jsTrim_ne_empty_of {s : String} (h : jsTrim s ≠ "") : s ≠ "" := by
  intro he; rw [he] at h; exact h jsTrim_empty

/-- Dropping while a predicate holds is idempotent. -/
theorem dropWhile_dropWhile (p : Char → Bool) (l : List Char) :
    (l.dropWhile p).dropWhile p = l.dropWhile p := by
  induction l with
  | nil => rfl
  | cons a t ih =>
      by_cases h : p a
      · simp [List.dropWhile_cons, h, ih]
      · simp [List.dropWhile_cons, h]

/-- A nonempty list fixed by `dropWhile p` has a head not satisfying `p`. -/
theorem head_not_of_dropWhile_eq_self {p : Char → Bool} {a : Char} {t : List Char}
    (h : (a :: t).dropWhile p = a :: t) : p a = false := by
  by_cases hp : p a
  · exfalso
    rw [List.dropWhile_cons, if_pos hp] at h
    have hlen : (t.dropWhile p).length ≤ t.length :=
      (List.dropWhile_suffix p).length_le
    rw [h] at hlen
    simp at hlen
  · simpa using hp

/-- If the head fails the predicate, `dropWhile` keeps the list. -/
theorem dropWhile_eq_self_of_head {p : Char → Bool} {a : Char} (t : List Char)
    (h : p a = false) : (a :: t).dropWhile p = a :: t := by
  simp [List.dropWhile_cons, h]

/-- A prefix of a list without a leading match also has no leading match. -/
theorem dropWhile_eq_self_of_prefix {p : Char → Bool} {l₁ l₂ : List Char}
    (hpre : l₁ <+: l₂) (h : l₂.dropWhile p = l₂) : l₁.dropWhile p = l₁ := by
  cases l₁ with
  | nil => rfl
  | cons a t =>
      cases l₂ with
      | nil => exact absurd hpre.length_le (by simp)
      | cons b t₂ =>
          obtain ⟨r, hr⟩ := hpre
          have hab : a = b := by
            have hh := congrArg (fun l => l.headI) hr
            simpa using hh
          subst hab
          exact dropWhile_eq_self_of_head t (head_not_of_dropWhile_eq_self h)

/-- Characterization of `trimChars` fixpoints: no leading and no trailing
whitespace. -/
theorem trimChars_eq_self {l : List Char}
    (h1 : l.dropWhile Char.isWhitespace = l)
    (h2 : l.reverse.dropWhile Char.isWhitespace = l.reverse) :
    trimChars l = l := by
  unfold trimChars
  rw [h1, h2, List.reverse_reverse]

theorem trimChars_fix_left (l : List Char) :
    (trimChars l).dropWhile Char.isWhitespace = trimChars l := by
  unfold trimChars
  have hpre : ((l.dropWhile Char.isWhitespace).reverse.dropWhile Char.isWhitespace).reverse
      <+: l.dropWhile Char.isWhitespace := by
    refine ⟨((l.dropWhile Char.isWhitespace).reverse.takeWhile Char.isWhitespace).reverse, ?_⟩
    have hsplit := List.takeWhile_append_dropWhile Char.isWhitespace
      (l.dropWhile Char.isWhitespace).reverse
    calc ((l.dropWhile Char.isWhitespace).reverse.dropWhile Char.isWhitespace).reverse
          ++ ((l.dropWhile Char.isWhitespace).reverse.takeWhile Char.isWhitespace).reverse
        = ((l.dropWhile Char.isWhitespace).reverse.takeWhile Char.isWhitespace
            ++ (l.dropWhile Char.isWhitespace).reverse.dropWhile Char.isWhitespace).reverse := by
          rw [List.reverse_append]
      _ = l.dropWhile Char.isWhitespace := by rw [hsplit, List.reverse_reverse]
  exact dropWhile_eq_self_of_prefix hpre (dropWhile_dropWhile _ l)

theorem trimChars_fix_right (l : List Char) :
    (trimChars l).reverse.dropWhile Char.isWhitespace = (trimChars l).reverse := by
  unfold trimChars
  rw [List.reverse_reverse]
  exact dropWhile_dropWhile _ _

/-- `jsTrim` is idempotent. -/
theorem jsTrim_idem (s : String) : jsTrim (jsTrim s) = jsTrim s := by
  show (⟨trimChars (trimChars s.data)⟩ : String) = ⟨trimChars s.data⟩
  rw [trimChars_eq_self (trimChars_fix_left s.data) (trimChars_fix_right s.data)]

/-- Joining two trimmed nonempty strings with a single space yields a trimmed
nonempty string. -/
theorem trimChars_append_space {l₁ l₂ : List Char}
    (h₁ : trimChars l₁ = l₁) (hne₁ : l₁ ≠ [])
    (h₂ : trimChars l₂ = l₂) (hne₂ : l₂ ≠ []) :
    trimChars (l₁ ++ ' ' :: l₂) = l₁ ++ ' ' :: l₂ := by
  have fix₁l : l₁.dropWhile Char.isWhitespace = l₁ := by
    conv_lhs => rw [← h₁]
    conv_rhs => rw [← h₁]
    exact trimChars_fix_left l₁
  have fix₂r : l₂.reverse.dropWhile Char.isWhitespace = l₂.reverse := by
    conv_lhs => rw [← h₂]
    conv_rhs => rw [← h₂]
    exact trimChars_fix_right l₂
  apply trimChars_eq_self
  · cases l₁ with
    | nil => exact absurd rfl hne₁
    | cons a t =>
        have ha : Char.isWhitespace a = false := head_not_of_dropWhile_eq_self fix₁l
        simpa using dropWhile_eq_self_of_head (t ++ ' ' :: l₂) ha
  · rw [show (l₁ ++ ' ' :: l₂).reverse = l₂.reverse ++ ' ' :: l₁.reverse by
      simp]
    cases hrev : l₂.reverse with
    | nil => exact absurd (by simpa using congrArg List.reverse hrev) hne₂
    | cons b t₂ =>
        rw [hrev] at fix₂r
        have hb : Char.isWhitespace b = false := head_not_of_dropWhile_eq_self fix₂r
        simpa using dropWhile_eq_self_of_head (t₂ ++ ' ' :: l₁.reverse) hb

/-- A string is `Trimmed` when it is a nonempty fixpoint of `jsTrim`.  The
pending-utterance accumulator is always empty or `Trimmed`. -/
def Trimmed (s : String) : Prop := jsTrim s = s ∧ s ≠ ""

theorem Trimmed.of_jsTrim {s : String} (h : jsTrim s ≠ "") : Trimmed (jsTrim s) :=
  ⟨jsTrim_idem s, h⟩

theorem Trimmed.append_space {s t : String} (hs : Trimmed s) (ht : Trimmed t) :
    Trimmed (s ++ " " ++ t) := by
  obtain ⟨hs1, hs2⟩ := hs
  obtain ⟨ht1, ht2⟩ := ht
  have hdata : (s ++ " " ++ t).data = s.data ++ ' ' :: t.data := by
    have h1 : (s ++ " " ++ t).data = (s.data ++ [' ']) ++ t.data := rfl
    rw [h1, List.append_assoc]
    rfl
  constructor
  · apply String.ext
    show trimChars (s ++ " " ++ t).data = (s ++ " " ++ t).data
    rw [hdata]
    exact trimChars_append_space
      (by simpa using congrArg String.data hs1) (String.ne_empty_iff_data.mp hs2)
      (by simpa using congrArg String.data ht1) (String.ne_empty_iff_data.mp ht2)
  · rw [String.ne_empty_iff_data, hdata]
    intro h
    exact List.cons_ne_nil _ _ (List.append_eq_nil.mp h).2

/-! ## Transcript Segmenter (DeepgramClient message handling)

State of the pending-utterance accumulator of `DeepgramClient`
(src/components/DeepgramClient.ts): the `pendingUtterance` string, whether the
quiet-period `flushTimer` is armed, and the utterances delivered to the wired
`onTranscript` callback, in emission order. -/

structure SegmenterState where
  pendingUtterance : String
  flushTimerSet : Bool
  emitted : List String
deriving Repr, DecidableEq

/-- State at `DeepgramClient` construction: empty accumulator, no timer, no
emissions. -/
def initSegmenter : SegmenterState :=
  { pendingUtterance := "", flushTimerSet := false, emitted := [] }

/-- Inbound Deepgram websocket messages, as classified by `handleMessage`:
`Results` messages carry the first alternative transcript and the `is_final`
flag; `UtteranceEnd`, `SpeechStarted` and `Metadata` carry no text. -/
inductive DgMessage where
  | results (transcript : String) (isFinal : Bool)
  | utteranceEnd
  | speechStarted
  | metadata
deriving Repr, DecidableEq

/-- `DeepgramClient.flushPendingUtterance`: trim the accumulator; when the
trimmed text is nonempty deliver it to the transcript callback; always clear
the accumulator and cancel the quiet timer. -/
def flushPendingUtterance (s : SegmenterState) : SegmenterState :=
  let text := jsTrim s.pendingUtterance
  { pendingUtterance := "",
    flushTimerSet := false,
    emitted := if text ≠ "" then s.emitted ++ [text] else s.emitted }

/-- `DeepgramClient.restartQuietFlushTimer`: clear any armed timer and arm a
fresh 1.5s quiet-period timer. -/
def restartQuietFlushTimer (s : SegmenterState) : SegmenterState :=
  { s with flushTimerSet := true }

/-- The `if (piece.length)` accumulation step of `handleMessage`: append a
trimmed final piece to the accumulator, separated by a single space from any
existing content. -/
def appendFinalPiece (pending piece : String) : String :=
  if pending ≠ "" then pending ++ " " ++ piece else piece

/-- `DeepgramClient.handleMessage`: on a final `Results` message with a truthy
transcript, accumulate the trimmed piece when nonempty and (re)arm the quiet
timer; interim results, `SpeechStarted` and `Metadata` are ignored;
`UtteranceEnd` flushes. -/
def handleMessage (s : SegmenterState) (m : DgMessage) : SegmenterState :=
  match m with
  | .results transcript isFinal =>
      if transcript ≠ "" then
        if isFinal then
          let piece := jsTrim transcript
          let s1 := if piece ≠ "" then
              { s with pendingUtterance := appendFinalPiece s.pendingUtterance piece }
            else s
          restartQuietFlushTimer s1
        else s
      else s
  | .utteranceEnd => flushPendingUtterance s
  | .speechStarted => s
  | .metadata => s

/-- Events driving the segmenter: an inbound websocket message, or the expiry
of the armed quiet-period timer (a `setTimeout` only fires while armed; firing
with no armed timer is a no-op). -/
inductive SegEvent where
  | msg (m : DgMessage)
  | quietTimerFire
deriving Repr, DecidableEq

def stepSegmenter (s : SegmenterState) (e : SegEvent) : SegmenterState :=
  match e with
  | .msg m => handleMessage s m
  | .quietTimerFire => if s.flushTimerSet then flushPendingUtterance s else s

def runSegmenter (s : SegmenterState) (es : List SegEvent) : SegmenterState :=
  es.foldl stepSegmenter s

/-- The event list of a recognized-fragment sequence: each pair is a
transcript and its finality flag. -/
def fragMsgs (frags : List (String × Bool)) : List SegEvent :=
  frags.map (fun f => SegEvent.msg (DgMessage.results f.1 f.2))

/-- The trimmed texts of the finality-flagged fragments, in arrival order. -/
def finalPieces (frags : List (String × Bool)) : List String :=
  (frags.filter (fun f => f.2)).map (fun f => jsTrim f.1)

example :
    (runSegmenter initSegmenter
      (fragMsgs [(" Hello ", true), ("noise", false), ("world", true)]
        ++ [SegEvent.msg DgMessage.utteranceEnd])).emitted = ["Hello world"] := by
  decide

example :
    (runSegmenter initSegmenter
      (fragMsgs [("One", true), ("Two", true)] ++ [SegEvent.quietTimerFire])).emitted
      = ["One Two"] := by
  decide

/-! ## Segmentation lemmas -/

theorem String.append_ne_empty_of_left {s : String} (t : String) (h : s ≠ "") :
    s ++ t ≠ "" := by
  rw [String.ne_empty_iff_data] at h ⊢
  rw [String.data_append_eq]
  simp [h]

theorem runSegmenter_append (s : SegmenterState) (l₁ l₂ : List SegEvent) :
    runSegmenter s (l₁ ++ l₂) = runSegmenter (runSegmenter s l₁) l₂ :=
  List.foldl_append _ _ _ _

/-- Processing a fragment sequence whose final fragments all have nonempty
trimmed text: the trimmed final pieces are folded into the accumulator with
single-space separators, the quiet timer ends armed iff a final fragment
occurred, and nothing is emitted. -/
theorem runSegmenter_fragMsgs (frags : List (String × Bool)) :
    ∀ s : SegmenterState,
      (∀ f ∈ frags, f.2 = true → jsTrim f.1 ≠ "") →
      runSegmenter s (fragMsgs frags) =
        { pendingUtterance := (finalPieces frags).foldl appendFinalPiece s.pendingUtterance,
          flushTimerSet := s.flushTimerSet || frags.any (fun f => f.2),
          emitted := s.emitted } := by
  induction frags with
  | nil => intro s _; simp [runSegmenter, fragMsgs, finalPieces]
  | cons f rest ih =>
      intro s hfin
      obtain ⟨t, fin⟩ := f
      cases fin with
      | true =>
          have htr : jsTrim t ≠ "" := hfin (t, true) (by simp) rfl
          have ht : t ≠ "" := jsTrim_ne_empty_of htr
          have hstep : handleMessage s (DgMessage.results t true) =
              restartQuietFlushTimer
                { s with pendingUtterance := appendFinalPiece s.pendingUtterance (jsTrim t) } := by
            simp [handleMessage, ht, htr]
          have hrest := ih { s with
              pendingUtterance := appendFinalPiece s.pendingUtterance (jsTrim t),
              flushTimerSet := true }
            (fun g hg hgf => hfin g (List.mem_cons_of_mem _ hg) hgf)
          simp only [fragMsgs, List.map_cons, runSegmenter, List.foldl_cons] at *
          rw [show stepSegmenter s (SegEvent.msg (DgMessage.results t true)) =
              { s with pendingUtterance := appendFinalPiece s.pendingUtterance (jsTrim t),
                       flushTimerSet := true } from by
            simp [stepSegmenter, hstep, restartQuietFlushTimer]]
          rw [hrest]
          simp [finalPieces]
      | false =>
          have hstep : handleMessage s (DgMessage.results t false) = s := by
            by_cases ht : t = "" <;> simp [handleMessage, ht]
          have hrest := ih s (fun g hg hgf => hfin g (List.mem_cons_of_mem _ hg) hgf)
          simp only [fragMsgs, List.map_cons, runSegmenter, List.foldl_cons] at *
          rw [show stepSegmenter s (SegEvent.msg (DgMessage.results t false)) = s from by
            simp [stepSegmenter, hstep]]
          rw [hrest]
          simp [finalPieces]

theorem foldl_appendFinalPiece_ne_empty (as : List String) :
    ∀ acc : String, acc ≠ "" →
      List.foldl appendFinalPiece acc as = List.foldl (fun b x => b ++ " " ++ x) acc as := by
  induction as with
  | nil => intro acc _; rfl
  | cons a as ih =>
      intro acc hacc
      simp only [List.foldl_cons]
      rw [show appendFinalPiece acc a = acc ++ " " ++ a from by simp [appendFinalPiece, hacc]]
      exact ih _ (String.append_ne_empty_of_left a (String.append_ne_empty_of_left " " hacc))

theorem intercalate_go_eq_foldl (s : String) : ∀ (as : List String) (acc : String),
    String.intercalate.go acc s as = List.foldl (fun b x => b ++ s ++ x) acc as := by
  intro as
  induction as with
  | nil => intro acc; rfl
  | cons a as ih => intro acc; simpa [String.intercalate.go] using ih (acc ++ s ++ a)

theorem intercalate_eq_foldl (s a : String) (as : List String) :
    String.intercalate s (a :: as) = List.foldl (fun b x => b ++ s ++ x) a as := by
  simpa [String.intercalate] using intercalate_go_eq_foldl s as a

/-- The source accumulation (space-separated fold) yields exactly the
space-joined concatenation of the pieces. -/
theorem foldl_appendFinalPiece_eq_intercalate (pieces : List String) (hne : pieces ≠ [])
    (hp : ∀ p ∈ pieces, p ≠ "") :
    List.foldl appendFinalPiece "" pieces = String.intercalate " " pieces := by
  cases pieces with
  | nil => exact absurd rfl hne
  | cons a as =>
      have ha : a ≠ "" := hp a (by simp)
      simp only [List.foldl_cons]
      rw [show appendFinalPiece "" a = a from by simp [appendFinalPiece]]
      rw [foldl_appendFinalPiece_ne_empty as a ha, intercalate_eq_foldl]

theorem trimmed_foldl_appendFinalPiece (pieces : List String)
    (hp : ∀ p ∈ pieces, Trimmed p) :
    ∀ acc : String, Trimmed acc → Trimmed (List.foldl appendFinalPiece acc pieces) := by
  induction pieces with
  | nil => intro acc h; exact h
  | cons a as ih =>
      intro acc hacc
      have hTa := hp a (by simp)
      simp only [List.foldl_cons]
      rw [show appendFinalPiece acc a = acc ++ " " ++ a from by simp [appendFinalPiece, hacc.2]]
      exact ih (fun p hmem => hp p (List.mem_cons_of_mem _ hmem)) _ (hacc.append_space hTa)

theorem trimmed_joined (pieces : List String) (hne : pieces ≠ [])
    (hp : ∀ p ∈ pieces, Trimmed p) :
    Trimmed (List.foldl appendFinalPiece "" pieces) := by
  cases pieces with
  | nil => exact absurd rfl hne
  | cons a as =>
      simp only [List.foldl_cons]
      rw [show appendFinalPiece "" a = a from by simp [appendFinalPiece]]
      exact trimmed_foldl_appendFinalPiece as
        (fun p hmem => hp p (List.mem_cons_of_mem _ hmem)) a (hp a (by simp))

theorem finalPieces_trimmed {frags : List (String × Bool)}
    (hfin : ∀ f ∈ frags, f.2 = true → jsTrim f.1 ≠ "") :
    ∀ p ∈ finalPieces frags, Trimmed p := by
  intro p hp
  simp only [finalPieces, List.mem_map, List.mem_filter] at hp
  obtain ⟨f, ⟨hmem, hfl⟩, rfl⟩ := hp
  exact Trimmed.of_jsTrim (hfin f hmem hfl)

theorem finalPieces_ne_empty {frags : List (String × Bool)}
    (hne : frags.any (fun f => f.2) = true) :
    finalPieces frags ≠ [] := by
  obtain ⟨f, hf, hf2⟩ := List.any_eq_true.mp hne
  intro h
  have hmem : jsTrim f.1 ∈ finalPieces frags := by
    simp only [finalPieces, List.mem_map, List.mem_filter]
    exact ⟨f, ⟨hf, hf2⟩, rfl⟩
  rw [h] at hmem
  exact List.not_mem_nil _ hmem

/-- C1: for every sequence of recognized-fragment messages in which each
finality-flagged fragment has nonempty trimmed text, with at least one final
fragment, followed by one utterance-boundary event, the segmenter emits
exactly one utterance whose text is the trimmed final texts joined by single
spaces, in arrival order; non-final fragments contribute nothing. -/
theorem segmenter_boundary_emits_joined_utterance
    (frags : List (String × Bool))
    (hfin : ∀ f ∈ frags, f.2 = true → jsTrim f.1 ≠ "")
    (hne : frags.any (fun f => f.2) = true) :
    (runSegmenter initSegmenter
        (fragMsgs frags ++ [SegEvent.msg DgMessage.utteranceEnd])).emitted
      = [String.intercalate " " (finalPieces frags)] := by
  rw [runSegmenter_append, runSegmenter_fragMsgs frags initSegmenter hfin]
  have hpne := finalPieces_ne_empty hne
  have hptr := finalPieces_trimmed hfin
  have hjoin : Trimmed (List.foldl appendFinalPiece "" (finalPieces frags)) :=
    trimmed_joined _ hpne hptr
  have hintc := foldl_appendFinalPiece_eq_intercalate _ hpne (fun p hp => (hptr p hp).2)
  simp only [initSegmenter, runSegmenter, List.foldl_cons, List.foldl_nil, stepSegmenter,
    handleMessage, flushPendingUtterance]
  rw [hjoin.1, if_pos hjoin.2, hintc]
  simp

/-- The C1 theorem applied at a concrete fragment sequence. -/
theorem segmenter_boundary_emits_joined_utterance_witness :
    (runSegmenter initSegmenter
        (fragMsgs [(" Hello ", true), ("there", false), ("world ", true)]
          ++ [SegEvent.msg DgMessage.utteranceEnd])).emitted
      = [String.intercalate " "
          (finalPieces [(" Hello ", true), ("there", false), ("world ", true)])] :=
  segmenter_boundary_emits_joined_utterance _ (by decide) (by decide)

/-- C2: when final fragments (each with nonempty trimmed text, at least one of
them) are followed by no boundary event and no further fragment, the armed
quiet timer is set; its expiry emits exactly one utterance with the same
space-joined text, clears the accumulator, disarms the timer, and a repeated
fire is a no-op — the fallback flush happens exactly once. -/
theorem segmenter_quiet_timer_flushes_once
    (frags : List (String × Bool))
    (hfin : ∀ f ∈ frags, f.2 = true → jsTrim f.1 ≠ "")
    (hne : frags.any (fun f => f.2) = true) :
    (runSegmenter initSegmenter (fragMsgs frags)).flushTimerSet = true
    ∧ (stepSegmenter (runSegmenter initSegmenter (fragMsgs frags))
        SegEvent.quietTimerFire).emitted
        = [String.intercalate " " (finalPieces frags)]
    ∧ (stepSegmenter (runSegmenter initSegmenter (fragMsgs frags))
        SegEvent.quietTimerFire).flushTimerSet = false
    ∧ (stepSegmenter (runSegmenter initSegmenter (fragMsgs frags))
        SegEvent.quietTimerFire).pendingUtterance = ""
    ∧ stepSegmenter (stepSegmenter (runSegmenter initSegmenter (fragMsgs frags))
        SegEvent.quietTimerFire) SegEvent.quietTimerFire
        = stepSegmenter (runSegmenter initSegmenter (fragMsgs frags))
            SegEvent.quietTimerFire := by
  rw [runSegmenter_fragMsgs frags initSegmenter hfin]
  have hpne := finalPieces_ne_empty hne
  have hptr := finalPieces_trimmed hfin
  have hjoin : Trimmed (List.foldl appendFinalPiece "" (finalPieces frags)) :=
    trimmed_joined _ hpne hptr
  have hintc := foldl_appendFinalPiece_eq_intercalate _ hpne (fun p hp => (hptr p hp).2)
  simp only [initSegmenter, stepSegmenter, flushPendingUtterance, hne, Bool.false_or, if_pos]
  rw [hjoin.1, if_pos hjoin.2, hintc]
  simp [jsTrim_empty]

/-- The C2 theorem applied at a concrete fragment sequence. -/
theorem segmenter_quiet_timer_flushes_once_witness :
    (runSegmenter initSegmenter (fragMsgs [("One", true), ("Two", true)])).flushTimerSet = true
    ∧ (stepSegmenter (runSegmenter initSegmenter (fragMsgs [("One", true), ("Two", true)]))
        SegEvent.quietTimerFire).emitted
        = [String.intercalate " " (finalPieces [("One", true), ("Two", true)])]
    ∧ (stepSegmenter (runSegmenter initSegmenter (fragMsgs [("One", true), ("Two", true)]))
        SegEvent.quietTimerFire).flushTimerSet = false
    ∧ (stepSegmenter (runSegmenter initSegmenter (fragMsgs [("One", true), ("Two", true)]))
        SegEvent.quietTimerFire).pendingUtterance = ""
    ∧ stepSegmenter (stepSegmenter (runSegmenter initSegmenter
        (fragMsgs [("One", true), ("Two", true)])) SegEvent.quietTimerFire)
        SegEvent.quietTimerFire
        = stepSegmenter (runSegmenter initSegmenter (fragMsgs [("One", true), ("Two", true)]))
            SegEvent.quietTimerFire :=
  segmenter_quiet_timer_flushes_once _ (by decide) (by decide)

theorem step_emitted_nonempty {s : SegmenterState} (e : SegEvent)
    (h : ∀ t ∈ s.emitted, t ≠ "") :
    ∀ t ∈ (stepSegmenter s e).emitted, t ≠ "" := by
  have hflush : ∀ t ∈ (flushPendingUtterance s).emitted, t ≠ "" := by
    intro t ht
    simp only [flushPendingUtterance] at ht
    by_cases hc : jsTrim s.pendingUtterance = ""
    · rw [if_neg (by simpa using hc)] at ht
      exact h t ht
    · rw [if_pos (by simpa using hc)] at ht
      rcases List.mem_append.mp ht with h1 | h2
      · exact h t h1
      · rw [List.mem_singleton] at h2
        rw [h2]
        exact hc
  cases e with
  | quietTimerFire =>
      intro t ht
      simp only [stepSegmenter] at ht
      by_cases harm : s.flushTimerSet
      · rw [if_pos harm] at ht
        exact hflush t ht
      · rw [if_neg harm] at ht
        exact h t ht
  | msg m =>
      cases m with
      | utteranceEnd => exact hflush
      | speechStarted => exact h
      | metadata => exact h
      | results tr fin =>
          intro t ht
          apply h t
          have he : (handleMessage s (DgMessage.results tr fin)).emitted = s.emitted := by
            unfold handleMessage
            by_cases h1 : tr = ""
            · simp [h1]
            · cases fin
              · simp [h1]
              · by_cases h2 : jsTrim tr = "" <;>
                  simp [h1, h2, restartQuietFlushTimer]
          simpa [stepSegmenter, he] using ht

theorem runSegmenter_emitted_nonempty (es : List SegEvent) :
    ∀ s : SegmenterState, (∀ t ∈ s.emitted, t ≠ "") →
      ∀ t ∈ (runSegmenter s es).emitted, t ≠ "" := by
  induction es with
  | nil => intro s h; exact h
  | cons e es ih =>
      intro s h
      exact ih _ (step_emitted_nonempty e h)

/-- C3: flushing with an empty or whitespace-only accumulator emits nothing
and leaves the accumulator empty (so flushing is idempotent), and no event
sequence ever makes the segmenter emit an empty utterance. -/
theorem flush_idempotent_and_never_empty :
    (∀ s : SegmenterState, jsTrim s.pendingUtterance = "" →
        (flushPendingUtterance s).emitted = s.emitted
        ∧ (flushPendingUtterance s).pendingUtterance = ""
        ∧ flushPendingUtterance (flushPendingUtterance s) =
            { flushPendingUtterance s with flushTimerSet := false })
    ∧ (∀ es : List SegEvent, ∀ t ∈ (runSegmenter initSegmenter es).emitted, t ≠ "") := by
  constructor
  · intro s hs
    refine ⟨?_, rfl, ?_⟩
    · simp [flushPendingUtterance, hs]
    · simp [flushPendingUtterance, hs, jsTrim_empty]
  · intro es
    exact runSegmenter_emitted_nonempty es initSegmenter (by simp [initSegmenter])

/-- The C3 theorem applied at a whitespace-only accumulator state and a
concrete event sequence. -/
theorem flush_idempotent_and_never_empty_witness :
    ((flushPendingUtterance ⟨"  ", true, ["hola"]⟩).emitted = ["hola"]
      ∧ (flushPendingUtterance ⟨"  ", true, ["hola"]⟩).pendingUtterance = "")
    ∧ "" ∉ (runSegmenter initSegmenter
        (fragMsgs [("  ", true), (" hi ", true)]
          ++ [SegEvent.msg DgMessage.utteranceEnd])).emitted := by
  constructor
  · have h := flush_idempotent_and_never_empty.1 ⟨"  ", true, ["hola"]⟩ (by decide)
    exact ⟨h.1, h.2.1⟩
  · intro hmem
    exact flush_idempotent_and_never_empty.2
      (fragMsgs [("  ", true), (" hi ", true)] ++ [SegEvent.msg DgMessage.utteranceEnd])
      "" hmem rfl

/-! ## Reconnection policy (DeepgramClient onclose / attemptReconnection)

Connection-lifecycle state of `DeepgramClient`: the `isConnected` and
`isRecording` flags, the reconnection counters, the statuses delivered to the
wired `onConnection` callback, the errors delivered to the wired `onError`
callback, and the backoff delay passed to each scheduled `setTimeout`
reconnection attempt, in order. -/

inductive ConnStatus where
  | connected
  | disconnected
  | reconnecting
deriving Repr, DecidableEq

structure ReconnState where
  isConnected : Bool
  isRecording : Bool
  reconnectAttempts : Nat
  maxReconnectAttempts : Nat
  reconnectDelay : Nat
  statusEvents : List ConnStatus
  errors : List String
  scheduledDelays : List Nat
deriving Repr, DecidableEq

/-- `DeepgramClient.attemptReconnection`, driven by the outcome of each
`connect()` call inside the scheduled timeout: `true` means the socket opened
(`onopen` resets the counters and reports `connected`), `false` means the
attempt rejected, doubling the delay and recursing. An empty outcome list
stops after scheduling the pending attempt. -/
def reconnectExhausted (s : ReconnState) : ReconnState :=
  { s with errors := s.errors ++ ["Failed to reconnect to Deepgram"] }

def reconnectScheduled (s : ReconnState) : ReconnState :=
  { s with reconnectAttempts := s.reconnectAttempts + 1,
           statusEvents := s.statusEvents ++ [ConnStatus.reconnecting],
           scheduledDelays := s.scheduledDelays ++ [s.reconnectDelay] }

def attemptReconnection : ReconnState → List Bool → ReconnState
  | s, [] =>
      if s.reconnectAttempts ≥ s.maxReconnectAttempts then reconnectExhausted s
      else reconnectScheduled s
  | s, ok :: rest =>
      if s.reconnectAttempts ≥ s.maxReconnectAttempts then reconnectExhausted s
      else
        let s1 := reconnectScheduled s
        if ok then
          { s1 with isConnected := true, reconnectAttempts := 0, reconnectDelay := 1000,
                    statusEvents := s1.statusEvents ++ [ConnStatus.connected] }
        else attemptReconnection { s1 with reconnectDelay := s1.reconnectDelay * 2 } rest

/-- The `socket.onclose` handler of `DeepgramClient.connect`: mark
disconnected, report the status, and attempt reconnection only on an abnormal
close code while recording is armed. -/
def handleSocketClose (s : ReconnState) (closeCode : Nat) (outcomes : List Bool) :
    ReconnState :=
  let s1 := { s with isConnected := false,
                     statusEvents := s.statusEvents ++ [ConnStatus.disconnected] }
  if closeCode ≠ 1000 ∧ s.isRecording = true then attemptReconnection s1 outcomes else s1

/-- `DeepgramClient.stop`: disarm recording and, when connected, close the
socket with the normal-closure code 1000, whose `onclose` then fires. -/
def stopDeepgramClient (s : ReconnState) (outcomes : List Bool) : ReconnState :=
  let s1 := { s with isRecording := false }
  if s.isConnected then handleSocketClose s1 1000 outcomes else s1

/-- Client state right after a successful `connect` and `startRecording`:
counters as initialized by the constructor and reset by `onopen`. -/
def armedClient : ReconnState :=
  { isConnected := true, isRecording := true, reconnectAttempts := 0,
    maxReconnectAttempts := 2, reconnectDelay := 1000,
    statusEvents := [], errors := [], scheduledDelays := [] }

theorem attemptReconnection_delays_le (outcomes : List Bool) :
    ∀ s : ReconnState,
      (attemptReconnection s outcomes).scheduledDelays.length
        ≤ s.scheduledDelays.length + (s.maxReconnectAttempts - s.reconnectAttempts) := by
  induction outcomes with
  | nil =>
      intro s
      unfold attemptReconnection
      by_cases h : s.reconnectAttempts ≥ s.maxReconnectAttempts
      · simp [h, reconnectExhausted]
      · simp only [if_neg h]
        simp only [reconnectScheduled, List.length_append, List.length_cons, List.length_nil]
        omega
  | cons ok rest ih =>
      intro s
      unfold attemptReconnection
      by_cases h : s.reconnectAttempts ≥ s.maxReconnectAttempts
      · simp [h, reconnectExhausted]
      · simp only [if_neg h]
        cases ok
        · refine le_trans (ih _) ?_
          simp only [reconnectScheduled, List.length_append, List.length_cons, List.length_nil]
          omega
        · simp only [if_pos, reconnectScheduled, List.length_append, List.length_cons,
            List.length_nil]
          omega

/-- Number of `reconnecting` statuses delivered to the connection callback. -/
def countReconnecting (s : ReconnState) : Nat :=
  s.statusEvents.count ConnStatus.reconnecting

theorem attemptReconnection_at_max {s : ReconnState}
    (h : s.reconnectAttempts ≥ s.maxReconnectAttempts) (outs : List Bool) :
    (attemptReconnection s outs).scheduledDelays = s.scheduledDelays := by
  cases outs <;> simp [attemptReconnection, h, reconnectExhausted]

theorem handleSocketClose_at_max {s : ReconnState}
    (h : s.reconnectAttempts ≥ s.maxReconnectAttempts) (code : Nat) (outs : List Bool) :
    (handleSocketClose s code outs).scheduledDelays = s.scheduledDelays := by
  simp only [handleSocketClose]
  by_cases hc : code ≠ 1000 ∧ s.isRecording = true
  · rw [if_pos hc]
    exact attemptReconnection_at_max
      (s := { s with isConnected := false,
                     statusEvents := s.statusEvents ++ [ConnStatus.disconnected] })
      h outs
  · rw [if_neg hc]

/-- C4: an abnormal closure while recording is armed triggers at most two
reconnection attempts with backoff delays 1s then 2s; when both attempts fail
the terminal error is surfaced and a further closure schedules no more
attempts; a clean `stop` (normal-closure code, recording disarmed) never
schedules an attempt, reports no `reconnecting` status and no error. -/
theorem deepgram_reconnection_policy :
    (∀ code : Nat, code ≠ 1000 →
        (handleSocketClose armedClient code [false, false]).scheduledDelays = [1000, 2000]
        ∧ countReconnecting (handleSocketClose armedClient code [false, false]) = 2
        ∧ (handleSocketClose armedClient code [false, false]).errors
            = ["Failed to reconnect to Deepgram"]
        ∧ (∀ code2 : Nat, ∀ outs : List Bool,
            (handleSocketClose (handleSocketClose armedClient code [false, false])
                code2 outs).scheduledDelays
              = (handleSocketClose armedClient code [false, false]).scheduledDelays))
    ∧ (∀ code : Nat, ∀ outs : List Bool,
        (handleSocketClose armedClient code outs).scheduledDelays.length ≤ 2)
    ∧ (∀ s : ReconnState, ∀ outs : List Bool,
        (stopDeepgramClient s outs).scheduledDelays = s.scheduledDelays
        ∧ countReconnecting (stopDeepgramClient s outs) = countReconnecting s
        ∧ (stopDeepgramClient s outs).errors = s.errors) := by
  refine ⟨?_, ?_, ?_⟩
  · intro code hcode
    have hif : code ≠ 1000 ∧ armedClient.isRecording = true := ⟨hcode, rfl⟩
    simp only [handleSocketClose, if_pos hif]
    refine ⟨by decide, by decide, by decide, ?_⟩
    intro code2 outs
    exact handleSocketClose_at_max (by decide) code2 outs
  · intro code outs
    simp only [handleSocketClose]
    by_cases hc : code ≠ 1000 ∧ armedClient.isRecording = true
    · rw [if_pos hc]
      refine le_trans (attemptReconnection_delays_le outs _) ?_
      decide
    · rw [if_neg hc]
      decide
  · intro s outs
    simp only [stopDeepgramClient]
    by_cases hc : s.isConnected
    · rw [if_pos hc]
      simp only [handleSocketClose]
      rw [if_neg (by simp)]
      refine ⟨rfl, ?_, rfl⟩
      simp [countReconnecting, List.count_append]
    · rw [if_neg hc]
      exact ⟨rfl, rfl, rfl⟩

/-- The C4 theorem applied at the abnormal close code 1006 and a concrete
client state. -/
theorem deepgram_reconnection_policy_witness :
    (handleSocketClose armedClient 1006 [false, false]).scheduledDelays = [1000, 2000]
    ∧ (handleSocketClose armedClient 1006 [false, false, false]).scheduledDelays.length ≤ 2
    ∧ (stopDeepgramClient armedClient []).scheduledDelays = armedClient.scheduledDelays :=
  ⟨(deepgram_reconnection_policy.1 1006 (by decide)).1,
    deepgram_reconnection_policy.2.1 1006 [false, false, false],
    (deepgram_reconnection_policy.2.2 armedClient []).1⟩

/-! ## Translation Gateway (TranslationService)

The translation service the controller imports is the TypeScript
`TranslationService` (named exports `TranslationService` /
`TranslationDirection`); its `translateText` first computes
`const clean = text.replace(ws-run-regex, single-space).trim()`. -/

/-- The two supported translation directions (`'en-es' | 'es-en'`). -/
inductive TranslationDirection where
  | enEs
  | esEn
deriving Repr, DecidableEq

/-- `TranslationService.getLanguageCodes`: pure direction-to-codes mapping
(source, target). -/
def getLanguageCodes : TranslationDirection → String × String
  | .enEs => ("en", "es")
  | .esEn => ("es", "en")

theorem String.mk_eq_empty_iff (l : List Char) : String.mk l = "" ↔ l = [] := by
  constructor
  · intro h
    exact congrArg String.data h
  · intro h
    rw [h]

/-- `trimChars` yields the empty list exactly when every character is
whitespace. -/
theorem trimChars_eq_nil_iff (l : List Char) :
    trimChars l = [] ↔ ∀ c ∈ l, Char.isWhitespace c := by
  unfold trimChars
  constructor
  · intro h c hc
    rw [List.reverse_eq_nil_iff, List.dropWhile_eq_nil_iff] at h
    have hsplit := List.takeWhile_append_dropWhile Char.isWhitespace l
    rw [← hsplit] at hc
    rcases List.mem_append.mp hc with h1 | h2
    · exact List.mem_takeWhile_imp h1
    · exact h c (List.mem_reverse.mpr h2)
  · intro h
    rw [List.dropWhile_eq_nil_iff.mpr h]
    rfl

/-- The global regex replace of whitespace runs by single spaces in
`translateText` (`text.replace` with a whitespace-run pattern): `inRun`
records whether the scan is inside a run whose replacement space was already
emitted. -/
def collapseWsAux : Bool → List Char → List Char
  | _, [] => []
  | inRun, c :: rest =>
      if c.isWhitespace then
        if inRun then collapseWsAux true rest
        else ' ' :: collapseWsAux true rest
      else c :: collapseWsAux false rest

/-- The whitespace normalization of the TypeScript
`TranslationService.translateText`: collapse whitespace runs to single
spaces, then trim. -/
def jsNormalizeWs (s : String) : String :=
  ⟨trimChars (collapseWsAux false s.data)⟩

theorem collapseWsAux_all_ws {l : List Char} (h : ∀ c ∈ l, Char.isWhitespace c) :
    ∀ b : Bool, ∀ c ∈ collapseWsAux b l, Char.isWhitespace c := by
  induction l with
  | nil =>
      intro b c hc
      simp [collapseWsAux] at hc
  | cons a t ih =>
      intro b c hc
      have ha : Char.isWhitespace a := h a (by simp)
      have ht : ∀ x ∈ t, Char.isWhitespace x := fun x hx => h x (List.mem_cons_of_mem _ hx)
      cases b with
      | true =>
          rw [show collapseWsAux true (a :: t) = collapseWsAux true t from by
            simp [collapseWsAux, ha]] at hc
          exact ih ht true c hc
      | false =>
          rw [show collapseWsAux false (a :: t) = ' ' :: collapseWsAux true t from by
            simp [collapseWsAux, ha]] at hc
          rcases List.mem_cons.mp hc with rfl | hmem
          · decide
          · exact ih ht true c hmem

theorem mem_collapseWsAux_of_not_ws {l : List Char} {c : Char}
    (hw : Char.isWhitespace c = false) :
    ∀ b : Bool, c ∈ l → c ∈ collapseWsAux b l := by
  induction l with
  | nil =>
      intro b hc
      simp at hc
  | cons a t ih =>
      intro b hc
      rcases List.mem_cons.mp hc with rfl | hmem
      · rw [show collapseWsAux b (c :: t) = c :: collapseWsAux false t from by
          simp [collapseWsAux, hw]]
        exact List.mem_cons_self _ _
      · by_cases ha : Char.isWhitespace a
        · cases b with
          | true =>
              rw [show collapseWsAux true (a :: t) = collapseWsAux true t from by
                simp [collapseWsAux, ha]]
              exact ih true hmem
          | false =>
              rw [show collapseWsAux false (a :: t) = ' ' :: collapseWsAux true t from by
                simp [collapseWsAux, ha]]
              exact List.mem_cons_of_mem _ (ih true hmem)
        · rw [show collapseWsAux b (a :: t) = a :: collapseWsAux false t from by
            simp [collapseWsAux, ha]]
          exact List.mem_cons_of_mem _ (ih false hmem)

/-- The normalized text is empty exactly when the trimmed text is empty,
i.e. exactly for empty or whitespace-only input. -/
theorem jsNormalizeWs_eq_empty_iff (s : String) :
    jsNormalizeWs s = "" ↔ jsTrim s = "" := by
  unfold jsNormalizeWs jsTrim
  rw [String.mk_eq_empty_iff, String.mk_eq_empty_iff,
      trimChars_eq_nil_iff, trimChars_eq_nil_iff]
  constructor
  · intro h c hc
    by_cases hw : Char.isWhitespace c
    · exact hw
    · exact absurd (h c (mem_collapseWsAux_of_not_ws (by simpa using hw) false hc)) hw
  · intro h c hc
    exact collapseWsAux_all_ws h false c hc

/-- The POST body of one Google Translate request issued by `translateText`:
`{q, source, target, format}` (the API key travels in the URL query string). -/
structure TranslateRequest where
  q : String
  source : String
  target : String
  format : String
deriving Repr, DecidableEq

/-- Possible fetch responses for one translation request: a 2xx response
whose body holds a `data.translations` array, a 2xx response of an
unexpected shape, or a non-success status with an error body. -/
inductive FetchOutcome where
  | success (translations : List String)
  | badFormat
  | httpError (status : Nat) (body : String)
deriving Repr, DecidableEq

/-- Outcome of `translateText`: a resolved string (the empty string for
empty input, otherwise the translated text) or a thrown `Error` carrying its
message. -/
inductive TranslateResult where
  | value (t : String)
  | thrown (message : String)
deriving Repr, DecidableEq

/-- `TranslationService.translateText` (TypeScript service): normalize the
input (`clean`); return the empty string without any request when `clean` is
empty (the following `return null` branch is unreachable); otherwise issue
exactly one request carrying the normalized text and either return the first
translation, or throw with the status and error body embedded in the
message, or throw on an unexpected response shape.  The second component
lists the issued requests. -/
def translateText (text sourceLanguage targetLanguage : String)
    (fetch : FetchOutcome) : TranslateResult × List TranslateRequest :=
  let clean := jsNormalizeWs text
  if clean = "" then
    (.value "", [])
  else
    let req : TranslateRequest :=
      { q := clean, source := sourceLanguage, target := targetLanguage, format := "text" }
    match fetch with
    | .httpError status body =>
        (.thrown ("Translation failed: " ++ toString status ++ " " ++ body), [req])
    | .success (t :: _) => (.value t, [req])
    | .success [] => (.thrown "Invalid translation response format", [req])
    | .badFormat => (.thrown "Invalid translation response format", [req])

/-- `TranslationService.translateForDirection`: map the direction to codes and
delegate to `translateText`. -/
def translateForDirection (text : String) (direction : TranslationDirection)
    (fetch : FetchOutcome) : TranslateResult × List TranslateRequest :=
  translateText text (getLanguageCodes direction).1 (getLanguageCodes direction).2 fetch

/-- C9: `translateForDirection` normalizes whitespace in the input text (the
single issued request carries the whitespace-normalized text); for every
empty or whitespace-only input it returns an empty result immediately with
no network request; for input with nonempty trimmed text it issues exactly
one request with the direction language codes, returns the backend
translated text on success, and throws an error embedding the response
status and body on any non-success response. -/
theorem translateForDirection_normalizes_and_contract (text : String)
    (direction : TranslationDirection) (fetch : FetchOutcome) :
    (jsTrim text = "" →
        translateForDirection text direction fetch = (TranslateResult.value "", []))
    ∧ (jsTrim text ≠ "" →
        (translateForDirection text direction fetch).2
          = [{ q := jsNormalizeWs text, source := (getLanguageCodes direction).1,
               target := (getLanguageCodes direction).2, format := "text" }]
        ∧ (∀ t rest, fetch = FetchOutcome.success (t :: rest) →
            (translateForDirection text direction fetch).1 = TranslateResult.value t)
        ∧ (∀ status body, fetch = FetchOutcome.httpError status body →
            (translateForDirection text direction fetch).1
              = TranslateResult.thrown
                  ("Translation failed: " ++ toString status ++ " " ++ body))) := by
  constructor
  · intro he
    have hclean : jsNormalizeWs text = "" := (jsNormalizeWs_eq_empty_iff text).mpr he
    simp [translateForDirection, translateText, hclean]
  · intro hne
    have hclean : ¬ jsNormalizeWs text = "" := fun h =>
      hne ((jsNormalizeWs_eq_empty_iff text).mp h)
    refine ⟨?_, ?_, ?_⟩
    · simp only [translateForDirection, translateText, if_neg hclean]
      cases fetch with
      | success ts => cases ts <;> rfl
      | badFormat => rfl
      | httpError status body => rfl
    · intro t rest hf
      subst hf
      simp [translateForDirection, translateText, hclean]
    · intro status body hf
      subst hf
      simp [translateForDirection, translateText, hclean]

/-- The C9 theorem applied at concrete inputs: a whitespace-only input makes
no request; the input with internal and surrounding whitespace runs is sent
whitespace-normalized in one request; a success returns the backend text and
a 403 throws with status and body embedded. -/
theorem translateForDirection_normalizes_and_contract_witness :
    (translateForDirection "   " TranslationDirection.enEs
        (FetchOutcome.success ["x"]) = (TranslateResult.value "", []))
    ∧ (translateForDirection " hello  there " TranslationDirection.enEs
          (FetchOutcome.success ["hola"])).2
        = [{ q := jsNormalizeWs " hello  there ", source := "en", target := "es",
             format := "text" }]
    ∧ jsNormalizeWs " hello  there " = "hello there"
    ∧ (translateForDirection "Hello" TranslationDirection.enEs
          (FetchOutcome.success ["Hola"])).1 = TranslateResult.value "Hola"
    ∧ (translateForDirection "Hello" TranslationDirection.enEs
          (FetchOutcome.httpError 403 "forbidden")).1
        = TranslateResult.thrown
            ("Translation failed: " ++ toString 403 ++ " " ++ "forbidden") :=
  ⟨(translateForDirection_normalizes_and_contract "   " TranslationDirection.enEs
      (FetchOutcome.success ["x"])).1 (by decide),
    ((translateForDirection_normalizes_and_contract " hello  there "
      TranslationDirection.enEs (FetchOutcome.success ["hola"])).2 (by decide)).1,
    by decide,
    ((translateForDirection_normalizes_and_contract "Hello" TranslationDirection.enEs
      (FetchOutcome.success ["Hola"])).2 (by decide)).2.1 "Hola" [] rfl,
    ((translateForDirection_normalizes_and_contract "Hello" TranslationDirection.enEs
      (FetchOutcome.httpError 403 "forbidden")).2 (by decide)).2.2 403 "forbidden" rfl⟩

/-! ## Transcript file sink (electron/main.ts IPC handlers)

The module-level `transcriptFiles` record: for each of the two write streams,
whether it is open, and the byte content of the file it created on disk
(`none` when no such file exists).  `fs.createWriteStream` with flag `w`
creates or truncates the file on disk immediately; ending the stream closes
it but the file stays on disk. -/

structure SinkState where
  enOpen : Bool
  esOpen : Bool
  enDisk : Option String
  esDisk : Option String
deriving Repr, DecidableEq

/-- State before any `files:createTranscripts` call: no streams, no files. -/
def initialSink : SinkState :=
  { enOpen := false, esOpen := false, enDisk := none, esDisk := none }

/-- `files:createTranscripts`: end any existing streams and open fresh write
streams with flag `w`, creating or truncating both files on disk. -/
def createTranscripts (_s : SinkState) : SinkState :=
  { enOpen := true, esOpen := true, enDisk := some "", esDisk := some "" }

/-- `files:appendTranscript`: pick the stream by comparing the file key
against `en` only (`filename === 'en' ? transcriptFiles.en :
transcriptFiles.es`); when the chosen stream is open, write `text + newline`
and report success; otherwise report `{success: false}` without writing. -/
def appendTranscript (filename text : String) (s : SinkState) : SinkState × Bool :=
  if filename = "en" then
    if s.enOpen then
      ({ s with enDisk := some ((s.enDisk.getD "") ++ text ++ "\n") }, true)
    else (s, false)
  else
    if s.esOpen then
      ({ s with esDisk := some ((s.esDisk.getD "") ++ text ++ "\n") }, true)
    else (s, false)

/-- `files:closeTranscripts`: end both streams; files stay on disk. -/
def closeTranscripts (s : SinkState) : SinkState :=
  { s with enOpen := false, esOpen := false }

/-- C10: the append handler dispatches on the file key by comparing it only
against `en` — any other key (such as `es`, or an unrecognized `fr`) behaves
exactly like `es`; when the targeted stream is not open the handler reports
failure and writes nothing, so appends before `createTranscripts` or after
`closeTranscripts` are reported no-ops. -/
theorem appendTranscript_dispatch_and_closed :
    (∀ filename text : String, ∀ s : SinkState, filename ≠ "en" →
        appendTranscript filename text s = appendTranscript "es" text s)
    ∧ (∀ text : String, ∀ s : SinkState, s.enOpen = true →
        appendTranscript "en" text s
          = ({ s with enDisk := some ((s.enDisk.getD "") ++ text ++ "\n") }, true))
    ∧ (∀ filename text : String, ∀ s : SinkState,
        (if filename = "en" then s.enOpen else s.esOpen) = false →
        appendTranscript filename text s = (s, false))
    ∧ (∀ filename text : String, ∀ s : SinkState,
        appendTranscript filename text (closeTranscripts s) = (closeTranscripts s, false))
    ∧ (∀ filename text : String,
        appendTranscript filename text initialSink = (initialSink, false)) := by
  refine ⟨?_, ?_, ?_, ?_, ?_⟩
  · intro filename text s hne
    simp [appendTranscript, hne]
  · intro text s hopen
    simp [appendTranscript, hopen]
  · intro filename text s hclosed
    by_cases hf : filename = "en"
    · subst hf
      simp only [if_true, eq_self_iff_true] at hclosed
      simp [appendTranscript, hclosed]
    · rw [if_neg hf] at hclosed
      simp [appendTranscript, hf, hclosed]
  · intro filename text s
    by_cases hf : filename = "en" <;> simp [appendTranscript, closeTranscripts, hf]
  · intro filename text
    by_cases hf : filename = "en" <;> simp [appendTranscript, initialSink, hf]

/-- The C10 theorem applied at concrete keys and states. -/
theorem appendTranscript_dispatch_and_closed_witness :
    appendTranscript "fr" "ligne" (createTranscripts initialSink)
      = appendTranscript "es" "ligne" (createTranscripts initialSink)
    ∧ appendTranscript "en" "line" (createTranscripts initialSink)
      = ({ createTranscripts initialSink with enDisk := some ("" ++ "line" ++ "\n") }, true)
    ∧ appendTranscript "en" "line"
        (closeTranscripts (createTranscripts initialSink))
      = (closeTranscripts (createTranscripts initialSink), false) :=
  ⟨appendTranscript_dispatch_and_closed.1 "fr" "ligne" (createTranscripts initialSink)
      (by decide),
    appendTranscript_dispatch_and_closed.2.1 "line" (createTranscripts initialSink) rfl,
    appendTranscript_dispatch_and_closed.2.2.2.1 "en" "line" (createTranscripts initialSink)⟩

/-! ## Recording session controller: per-utterance pipeline (useRecording) -/

/-- Outcome of the awaited `translateForDirection` call for one finalized
utterance: a resolved nonull translated text, or a rejection caught by the
handler's catch block. -/
inductive TranslationOutcome where
  | ok (translated : String)
  | failed (message : String)
deriving Repr, DecidableEq

/-- Observable controller effects of the `onTranscript` handler: the
translation lines delivered to `onTranslationReceived` as (text, original)
pairs (the id and timestamp fields are clock-derived and not modelled), the
file appends issued as (fileKey, text) pairs in issue order, the
has-any-content flag, and whether `setError` ran. -/
structure ControllerLineState where
  lines : List (String × String)
  appends : List (String × String)
  hasContent : Bool
  errorSet : Bool
deriving Repr, DecidableEq

def initControllerLines : ControllerLineState :=
  { lines := [], appends := [], hasContent := false, errorSet := false }

/-- The `onTranscript` handler wired by `setupCallbacks`: skip utterances
whose text is empty or whitespace-only; on a successful nonempty translation
emit one line `(translated, original)`, mark content, and issue the source
append followed by the target append; a falsy (empty) translated text does
nothing; on a rejected translation emit one error-tagged line carrying the
original text and record the error — nothing is torn down. -/
def onTranscriptEvent (direction : TranslationDirection) (st : ControllerLineState)
    (resultText : String) (outcome : TranslationOutcome) : ControllerLineState :=
  if resultText = "" ∨ jsTrim resultText = "" then st
  else
    match outcome with
    | .ok t =>
        if t ≠ "" then
          { st with lines := st.lines ++ [(t, resultText)],
                    hasContent := true,
                    appends := st.appends
                      ++ [((getLanguageCodes direction).1, resultText),
                          ((getLanguageCodes direction).2, t)] }
        else st
    | .failed _ =>
        { st with lines := st.lines ++ [("[Translation Error] " ++ resultText, resultText)],
                  errorSet := true }

def runTranscriptEvents (direction : TranslationDirection)
    (evs : List (String × TranslationOutcome)) (st : ControllerLineState) :
    ControllerLineState :=
  evs.foldl (fun acc ev => onTranscriptEvent direction acc ev.1 ev.2) st

/-- The lines a sequence of successfully translated utterances produces:
one `(translated, original)` pair per utterance. -/
def normalLines (good : List (String × String)) : List (String × String) :=
  good.map fun u => (u.2, u.1)

/-- The appends a sequence of successfully translated utterances produces:
source text to the source-language file then translated text to the
target-language file, per utterance. -/
def normalAppends (direction : TranslationDirection) :
    List (String × String) → List (String × String)
  | [] => []
  | u :: rest =>
      ((getLanguageCodes direction).1, u.1)
        :: ((getLanguageCodes direction).2, u.2)
        :: normalAppends direction rest

theorem runTranscriptEvents_ok (direction : TranslationDirection) :
    ∀ good : List (String × String),
      (∀ u ∈ good, jsTrim u.1 ≠ "" ∧ u.2 ≠ "") →
      ∀ st : ControllerLineState,
        runTranscriptEvents direction
            (good.map fun u => (u.1, TranslationOutcome.ok u.2)) st
          = { st with lines := st.lines ++ normalLines good,
                      appends := st.appends ++ normalAppends direction good,
                      hasContent := st.hasContent || !good.isEmpty } := by
  intro good
  induction good with
  | nil => intro _ st; simp [runTranscriptEvents, normalLines, normalAppends]
  | cons u rest ih =>
      intro hgood st
      have hu := hgood u (by simp)
      have hcond : ¬ (u.1 = "" ∨ jsTrim u.1 = "") := by
        rintro (h | h)
        · exact hu.1 (by rw [h]; exact jsTrim_empty)
        · exact hu.1 h
      simp only [List.map_cons, runTranscriptEvents, List.foldl_cons]
      rw [show onTranscriptEvent direction st u.1 (TranslationOutcome.ok u.2)
          = { st with lines := st.lines ++ [(u.2, u.1)],
                      hasContent := true,
                      appends := st.appends
                        ++ [((getLanguageCodes direction).1, u.1),
                            ((getLanguageCodes direction).2, u.2)] } from by
        simp [onTranscriptEvent, hcond, hu.2]]
      have hrest := ih (fun v hv => hgood v (List.mem_cons_of_mem _ hv))
      simp only [runTranscriptEvents] at hrest
      rw [hrest]
      simp [normalLines, normalAppends]

/-- The event sequence in which one utterance's translation fails between two
runs of successfully translated utterances. -/
def failScenario (pre post : List (String × String)) (txt msg : String) :
    List (String × TranslationOutcome) :=
  (pre.map fun u => (u.1, TranslationOutcome.ok u.2))
    ++ (txt, TranslationOutcome.failed msg)
    :: (post.map fun u => (u.1, TranslationOutcome.ok u.2))

/-- C7: when the translation of one finalized utterance fails, the controller
still emits one visible error-tagged line carrying the original source text,
issues no appends for it, records the error, and every subsequent utterance
is processed normally — translated lines emitted and both appends issued in
order; the handler tears nothing down. -/
theorem translation_failure_is_isolated (direction : TranslationDirection)
    (pre post : List (String × String)) (txt msg : String)
    (hpre : ∀ u ∈ pre, jsTrim u.1 ≠ "" ∧ u.2 ≠ "")
    (hpost : ∀ u ∈ post, jsTrim u.1 ≠ "" ∧ u.2 ≠ "")
    (htxt : jsTrim txt ≠ "") :
    (runTranscriptEvents direction (failScenario pre post txt msg)
        initControllerLines).lines
      = normalLines pre ++ [("[Translation Error] " ++ txt, txt)] ++ normalLines post
    ∧ (runTranscriptEvents direction (failScenario pre post txt msg)
        initControllerLines).appends
      = normalAppends direction pre ++ normalAppends direction post
    ∧ (runTranscriptEvents direction (failScenario pre post txt msg)
        initControllerLines).errorSet = true := by
  have hcond : ¬ (txt = "" ∨ jsTrim txt = "") := by
    rintro (h | h)
    · exact htxt (by rw [h]; exact jsTrim_empty)
    · exact htxt h
  have hsplit : runTranscriptEvents direction (failScenario pre post txt msg)
      initControllerLines
      = runTranscriptEvents direction (post.map fun u => (u.1, TranslationOutcome.ok u.2))
          (onTranscriptEvent direction
            (runTranscriptEvents direction
              (pre.map fun u => (u.1, TranslationOutcome.ok u.2)) initControllerLines)
            txt (TranslationOutcome.failed msg)) := by
    simp [failScenario, runTranscriptEvents, List.foldl_append]
  rw [hsplit, runTranscriptEvents_ok direction pre hpre]
  rw [show onTranscriptEvent direction
      { initControllerLines with
          lines := initControllerLines.lines ++ normalLines pre,
          appends := initControllerLines.appends ++ normalAppends direction pre,
          hasContent := initControllerLines.hasContent || !pre.isEmpty }
      txt (TranslationOutcome.failed msg)
      = { lines := (initControllerLines.lines ++ normalLines pre)
            ++ [("[Translation Error] " ++ txt, txt)],
          appends := initControllerLines.appends ++ normalAppends direction pre,
          hasContent := initControllerLines.hasContent || !pre.isEmpty,
          errorSet := true } from by
    simp [onTranscriptEvent, hcond]]
  rw [runTranscriptEvents_ok direction post hpost]
  simp [initControllerLines]

/-- The C7 theorem applied at a concrete three-utterance session in which the
middle translation fails. -/
theorem translation_failure_is_isolated_witness :
    (runTranscriptEvents TranslationDirection.enEs
        (failScenario [("Hello", "Hola")] [("Bye", "Adios")] "Missed" "boom")
        initControllerLines).lines
      = normalLines [("Hello", "Hola")]
        ++ [("[Translation Error] " ++ "Missed", "Missed")]
        ++ normalLines [("Bye", "Adios")]
    ∧ (runTranscriptEvents TranslationDirection.enEs
        (failScenario [("Hello", "Hola")] [("Bye", "Adios")] "Missed" "boom")
        initControllerLines).appends
      = normalAppends TranslationDirection.enEs [("Hello", "Hola")]
        ++ normalAppends TranslationDirection.enEs [("Bye", "Adios")]
    ∧ (runTranscriptEvents TranslationDirection.enEs
        (failScenario [("Hello", "Hola")] [("Bye", "Adios")] "Missed" "boom")
        initControllerLines).errorSet = true :=
  translation_failure_is_isolated TranslationDirection.enEs
    [("Hello", "Hola")] [("Bye", "Adios")] "Missed" "boom"
    (by decide) (by decide) (by decide)

/-- Issue a list of (fileKey, text) appends to the sink in order, as the
controller awaits `appendToTranscript` for each. -/
def applyAppends (appends : List (String × String)) (s : SinkState) : SinkState :=
  appends.foldl (fun st a => (appendTranscript a.1 a.2 st).1) s

/-- C8: each successfully translated utterance makes the handler emit exactly
one line whose text is the translated text and whose original field is the
source text, and issue exactly two appends in the fixed order source text to
the source-language key, then translated text to the target-language key;
concretely, for direction en→es with source `Hello` and translation `Hola`,
one line `(Hola, Hello)` is emitted and the sink receives `Hello` plus a
newline in the `en` file and `Hola` plus a newline in the `es` file. -/
theorem per_utterance_line_and_two_ordered_appends :
    (∀ direction : TranslationDirection, ∀ st : ControllerLineState, ∀ txt t : String,
        jsTrim txt ≠ "" → t ≠ "" →
        onTranscriptEvent direction st txt (TranslationOutcome.ok t)
          = { st with lines := st.lines ++ [(t, txt)],
                      hasContent := true,
                      appends := st.appends
                        ++ [((getLanguageCodes direction).1, txt),
                            ((getLanguageCodes direction).2, t)] })
    ∧ (runTranscriptEvents TranslationDirection.enEs [("Hello", TranslationOutcome.ok "Hola")]
          initControllerLines).lines = [("Hola", "Hello")]
    ∧ (runTranscriptEvents TranslationDirection.enEs [("Hello", TranslationOutcome.ok "Hola")]
          initControllerLines).appends = [("en", "Hello"), ("es", "Hola")]
    ∧ applyAppends
        (runTranscriptEvents TranslationDirection.enEs
          [("Hello", TranslationOutcome.ok "Hola")] initControllerLines).appends
        (createTranscripts initialSink)
      = { enOpen := true, esOpen := true,
          enDisk := some ("Hello" ++ "\n"), esDisk := some ("Hola" ++ "\n") } := by
  refine ⟨?_, by decide, by decide, by decide⟩
  intro direction st txt t htxt ht
  have hcond : ¬ (txt = "" ∨ jsTrim txt = "") := by
    rintro (h | h)
    · exact htxt (by rw [h]; exact jsTrim_empty)
    · exact htxt h
  simp [onTranscriptEvent, hcond, ht]

/-- The C8 theorem applied at the spec's example scenario. -/
theorem per_utterance_line_and_two_ordered_appends_witness :
    onTranscriptEvent TranslationDirection.enEs initControllerLines "Hello"
        (TranslationOutcome.ok "Hola")
      = { initControllerLines with
            lines := initControllerLines.lines ++ [("Hola", "Hello")],
            hasContent := true,
            appends := initControllerLines.appends
              ++ [((getLanguageCodes TranslationDirection.enEs).1, "Hello"),
                  ((getLanguageCodes TranslationDirection.enEs).2, "Hola")] } :=
  per_utterance_line_and_two_ordered_appends.1 TranslationDirection.enEs
    initControllerLines "Hello" "Hola" (by decide) (by decide)

/-- One whole recorded session at the file level: `startRecording` creates
and truncates both transcript files; each finalized utterance runs the
`onTranscript` pipeline whose appends reach the sink in issue order;
`cleanup` at stop closes the streams only when the has-content flag was set
(`if (hasTranscriptContentRef.current) closeTranscriptFiles()`) and never
deletes any file. -/
def runControllerSession (direction : TranslationDirection)
    (utts : List (String × TranslationOutcome)) : SinkState :=
  let st := runTranscriptEvents direction utts initControllerLines
  let sink := applyAppends st.appends (createTranscripts initialSink)
  if st.hasContent then closeTranscripts sink else sink

/-- C6 evaluated on the code: a session with zero processed utterances still
leaves both transcript files on disk (created empty at start and never
removed — only the close call is skipped, and the streams even stay open),
contradicting the claim that no transcript files remain; a session with two
successfully processed utterances leaves exactly the two files, closed, with
one line per utterance. -/
theorem session_file_artifacts :
    runControllerSession TranslationDirection.enEs []
      = { enOpen := true, esOpen := true, enDisk := some "", esDisk := some "" }
    ∧ (runControllerSession TranslationDirection.enEs []).enDisk ≠ none
    ∧ (runControllerSession TranslationDirection.enEs []).esDisk ≠ none
    ∧ runControllerSession TranslationDirection.enEs
        [("Hello", TranslationOutcome.ok "Hola"), ("Hi", TranslationOutcome.ok "Buenas")]
      = { enOpen := false, esOpen := false,
          enDisk := some ("Hello" ++ "\n" ++ "Hi" ++ "\n"),
          esDisk := some ("Hola" ++ "\n" ++ "Buenas" ++ "\n") } := by
  refine ⟨by decide, by decide, by decide, by decide⟩

/-! ## Recording session controller: stop() interleaved with start()

`useRecording` is single-threaded with asynchronous awaits: a user-initiated
`stopRecording` can only run at a suspension point of `startRecording`.  The
model runs `startRecording` for a valid configuration (files created, devices
and keys fine, connection and reachability succeed) and lets one
`stopRecording` run at a chosen suspension point, right before the awaited
continuation resumes. -/

inductive RecordingState where
  | idle
  | initializing
  | recording
  | stopping
deriving Repr, DecidableEq

inductive UiStatus where
  | connecting
  | listening
  | reconnecting
  | error
deriving Repr, DecidableEq

/-- Controller-visible session state: the three service refs, the Deepgram
socket and recording-armed flag, the stopping flag, the has-content flag,
whether `setupCallbacks` ran, the React lifecycle state, the error state, the
toasts shown, and the `onStatusChange` events in order.  `mixerLive` tracks
whether a constructed `AudioMixer` has not had `cleanup()` called (a live
audio graph and device tracks).  `pendingCloseEvent` records a websocket
close event that has been queued by `socket.close` but not yet dispatched:
the browser fires it in a later task, after the microtask continuations of
`stopRecording` have completed. -/
structure AppState where
  mixerRef : Bool
  mixerLive : Bool
  clientRef : Bool
  socketOpen : Bool
  pendingCloseEvent : Bool
  clientRecording : Bool
  translationRef : Bool
  isStopping : Bool
  hasContent : Bool
  handlersWired : Bool
  recordingState : RecordingState
  errorSet : Bool
  errorToast : Bool
  successToast : Bool
  statusEvents : List UiStatus
deriving Repr, DecidableEq

def initialAppState : AppState :=
  { mixerRef := false, mixerLive := false, clientRef := false, socketOpen := false,
    pendingCloseEvent := false,
    clientRecording := false, translationRef := false, isStopping := false,
    hasContent := false, handlersWired := false, recordingState := RecordingState.idle,
    errorSet := false, errorToast := false, successToast := false, statusEvents := [] }

/-- The wired `onConnection` handler receiving `disconnected`: unless the
stopping flag is set, report the ERROR status and set the error. -/
def deliverDisconnected (s : AppState) : AppState :=
  if s.handlersWired = true ∧ s.isStopping = false then
    { s with statusEvents := s.statusEvents ++ [UiStatus.error], errorSet := true }
  else s

/-- The wired `onConnection` handler receiving `connected` (fired by
`socket.onopen`): report LISTENING and move to the recording state. -/
def deliverConnected (s : AppState) : AppState :=
  if s.handlersWired then
    { s with statusEvents := s.statusEvents ++ [UiStatus.listening],
             recordingState := RecordingState.recording }
  else s

/-- `DeepgramClient.stop` as seen by the controller: disarm recording and,
when the socket is open, close it normally.  The close event is not handled
here: the browser queues it as a later task, so it is recorded as pending and
dispatched only after the current call chain (in particular the whole of
`stopRecording`, which resets the stopping flag) has finished. -/
def clientStopDg (s : AppState) : AppState :=
  let s1 := { s with clientRecording := false }
  if s1.socketOpen then { s1 with socketOpen := false, pendingCloseEvent := true } else s1

/-- `useRecording.cleanup`: abort pending work, stop and drop the Deepgram
client, clean up and drop the mixer, drop the translation service, close the
transcript files only when content exists (file model kept separately), reset
the content flag, go idle and clear the error. -/
def cleanupRecording (s : AppState) : AppState :=
  let s1 := if s.clientRef then { (clientStopDg s) with clientRef := false } else s
  let s2 := if s1.mixerRef then { s1 with mixerRef := false, mixerLive := false } else s1
  let s3 := { s2 with translationRef := false }
  { s3 with hasContent := false, recordingState := RecordingState.idle, errorSet := false }

/-- `useRecording.stopRecording`: enter the stopping state, set the stopping
flag, run cleanup, reset the flag and show the success toast. -/
def stopRecordingCall (s : AppState) : AppState :=
  let s1 := { s with recordingState := RecordingState.stopping, isStopping := true }
  let s2 := cleanupRecording s1
  { s2 with isStopping := false, successToast := true }

/-- The catch block of `startRecording`: set the error, go idle, report the
ERROR status, show the error toast, then run cleanup (and rethrow). -/
def catchStartFailure (s : AppState) : AppState :=
  cleanupRecording
    { s with errorSet := true, recordingState := RecordingState.idle,
             statusEvents := s.statusEvents ++ [UiStatus.error], errorToast := true }

/-- The suspension points of `startRecording` at which a concurrent
`stopRecording` can be scheduled (each is an awaited operation; the stop runs
after the operation completes, before the continuation resumes). -/
inductive StopPoint where
  | afterCreateFiles
  | afterMixerInit
  | afterConnectMic
  | afterConnectSystem
  | afterGetApiKeys
  | afterConnect
  | afterSetupDelay
  | afterStreamingSetup
  | afterTestConnection
deriving Repr, DecidableEq

def maybeStop (stopAt : Option StopPoint) (p : StopPoint) (s : AppState) : AppState :=
  if stopAt = some p then stopRecordingCall s else s

/-- `startRecording` for a valid configuration, with one optional concurrent
`stopRecording` at the chosen suspension point.  Reads of a nulled
`audioMixerRef.current` throw (caught by the catch block); the two
cancellation checks inside `connectAndStart` return quietly. -/
def runStart (stopAt : Option StopPoint) (hasSystem : Bool) : AppState :=
  let s0 := { initialAppState with
      recordingState := RecordingState.initializing,
      statusEvents := [UiStatus.connecting] }
  let s1 := maybeStop stopAt StopPoint.afterCreateFiles s0
  let s2 := { s1 with mixerRef := true, mixerLive := true }
  let s3 := maybeStop stopAt StopPoint.afterMixerInit s2
  if s3.mixerRef = false then catchStartFailure s3 else
  let s4 := maybeStop stopAt StopPoint.afterConnectMic s3
  if hasSystem = true ∧ s4.mixerRef = false then catchStartFailure s4 else
  let s5 := if hasSystem then maybeStop stopAt StopPoint.afterConnectSystem s4 else s4
  if s5.mixerRef = false then catchStartFailure s5 else
  let s6 := maybeStop stopAt StopPoint.afterGetApiKeys s5
  let s7 := { s6 with clientRef := true, translationRef := true }
  let s8 := { s7 with handlersWired := true }
  if (s8.clientRef && s8.mixerRef && s8.translationRef) = false then catchStartFailure s8 else
  let s9 := deliverConnected { s8 with socketOpen := true }
  let s10 := maybeStop stopAt StopPoint.afterConnect s9
  let s11 := maybeStop stopAt StopPoint.afterSetupDelay s10
  if (s11.clientRef && s11.mixerRef && s11.translationRef) = false then s11 else
  let s12 := { s11 with clientRecording := true }
  let s13 := maybeStop stopAt StopPoint.afterStreamingSetup s12
  if (s13.clientRef && s13.mixerRef && s13.translationRef) = false then s13 else
  let s14 := maybeStop stopAt StopPoint.afterTestConnection s13
  { s14 with statusEvents := s14.statusEvents ++ [UiStatus.listening],
             recordingState := RecordingState.recording }

/-- Dispatch of a queued websocket close event: it arrives in a task after
`stopRecording` has already reset `isStoppingRef` to `false` (the no-content
cleanup has no further awaits), so the wired handler sees the stopping flag
down and takes its not-stopping branch. -/
def deliverPendingClose (s : AppState) : AppState :=
  if s.pendingCloseEvent then deliverDisconnected { s with pendingCloseEvent := false }
  else s

/-- The session state once the start, the interleaved stop and the queued
socket close event have all run. -/
def runStartSettled (stopAt : Option StopPoint) (hasSystem : Bool) : AppState :=
  deliverPendingClose (runStart stopAt hasSystem)

/-- The property C5 claims for a stop at suspension point `p`: no error toast,
no ERROR status, the mixer cleaned up and the connection closed. -/
def stopDuringStartClean (p : StopPoint) (hasSystem : Bool) : Prop :=
  (runStartSettled (some p) hasSystem).errorToast = false
  ∧ UiStatus.error ∉ (runStartSettled (some p) hasSystem).statusEvents
  ∧ (runStartSettled (some p) hasSystem).mixerLive = false
  ∧ (runStartSettled (some p) hasSystem).socketOpen = false

instance stopDuringStartCleanDecidable (p : StopPoint) (b : Bool) :
    Decidable (stopDuringStartClean p b) := by
  unfold stopDuringStartClean
  infer_instance

/-- C5 counterexample: a stop during mixer initialization leaves the resumed
`startRecording` reading the nulled mixer ref, and the thrown error surfaces
as an error toast and ERROR status; a stop right after file creation lets the
resumed start rebuild everything and keep recording with a live mixer and an
open connection; and even at a checked point (the post-connect settling
delay) the queued socket close event arrives after the stopping flag is
reset, so the handler surfaces an ERROR status. -/
theorem stop_during_start_not_always_clean :
    ¬ stopDuringStartClean StopPoint.afterMixerInit true
    ∧ (runStartSettled (some StopPoint.afterMixerInit) true).errorToast = true
    ∧ (runStartSettled (some StopPoint.afterCreateFiles) true).mixerLive = true
    ∧ (runStartSettled (some StopPoint.afterCreateFiles) true).socketOpen = true
    ∧ (runStartSettled (some StopPoint.afterCreateFiles) true).recordingState
        = RecordingState.recording
    ∧ ¬ stopDuringStartClean StopPoint.afterSetupDelay true
    ∧ UiStatus.error
        ∈ (runStartSettled (some StopPoint.afterSetupDelay) true).statusEvents := by
  decide

/-- What a stop at a post-connect suspension point actually achieves: the
mixer and connection are cleaned up, the start aborts quietly back to idle
with the stop success toast and no error toast, but the queued socket close
event — dispatched only after `stopRecording` has reset the stopping flag —
makes the disconnected handler surface an ERROR status and set the
connection-lost error. -/
def stopAbsorbedWithLateError (p : StopPoint) (hasSystem : Bool) : Prop :=
  (runStartSettled (some p) hasSystem).errorToast = false
  ∧ (runStartSettled (some p) hasSystem).mixerLive = false
  ∧ (runStartSettled (some p) hasSystem).socketOpen = false
  ∧ (runStartSettled (some p) hasSystem).recordingState = RecordingState.idle
  ∧ (runStartSettled (some p) hasSystem).successToast = true
  ∧ UiStatus.error ∈ (runStartSettled (some p) hasSystem).statusEvents
  ∧ (runStartSettled (some p) hasSystem).errorSet = true

instance stopAbsorbedWithLateErrorDecidable (p : StopPoint) (b : Bool) :
    Decidable (stopAbsorbedWithLateError p b) := by
  unfold stopAbsorbedWithLateError
  infer_instance

/-- C5 (amended): a stop interleaved at the suspension points after the
connection is open — connect resolution, the post-connect settling delay, or
the streaming setup — is absorbed by the cancellation checks of
`connectAndStart`: the mixer and connection are cleaned up and the start
aborts quietly back to idle with the stop success toast and no error toast;
however the socket close event, arriving after `stopRecording` has reset the
stopping flag, is mis-reported by the disconnected handler as an ERROR status
with a connection-lost error.  At earlier suspension points not even cleanup
is guaranteed. -/
theorem stop_during_start_cleanup_but_late_disconnect_error :
    stopAbsorbedWithLateError StopPoint.afterConnect true
    ∧ stopAbsorbedWithLateError StopPoint.afterSetupDelay true
    ∧ stopAbsorbedWithLateError StopPoint.afterStreamingSetup true
    ∧ stopAbsorbedWithLateError StopPoint.afterConnect false
    ∧ stopAbsorbedWithLateError StopPoint.afterSetupDelay false
    ∧ stopAbsorbedWithLateError StopPoint.afterStreamingSetup false := by
  decide
